import Mathlib

/-!
Shallow embedding of the BOG (boil-off gas) release decision core:
the Fermatean fuzzy set value type and its validation (src/fuzzy.py,
class FermateanFuzzySet), the FFLDWA aggregation operator
(src/fuzzy.py, class FFLDWA), and the release rule engine
(src/rules.py, class BOGReleaseRules).  Python floats are modelled as
real numbers; Python exceptions observable from this core are modelled
by an explicit error type threaded through Except.
-/

/-- Python exceptions that the fuzzy decision core can raise:
ValueError with its message (raised by the FermateanFuzzySet
constructor and by FFLDWA.aggregate), and ZeroDivisionError (raised
when rules.py computes the uniform weight 1/len on an empty list). -/
inductive PyError where
  | valueError (msg : String)
  | zeroDivisionError
deriving DecidableEq, Repr

/-- Message of the ValueError raised by FermateanFuzzySet.__init__ when a
degree is outside [0, 1] (src/fuzzy.py line 15). -/
def rangeMsg : String := "Membership and non-membership degrees must be in [0, 1]."

/-- Message of the ValueError raised by FermateanFuzzySet.__init__ when the
Fermatean constraint fails (src/fuzzy.py line 17). -/
def fermateanMsg : String := "Fermatean Fuzzy condition violated: mu^3 + nu^3 must be <= 1."

/-- Message of the ValueError raised by FFLDWA.aggregate on a length
mismatch (src/fuzzy.py line 47); the spec calls this ShapeError. -/
def lengthMsg : String := "Length of ffs_list and weights must be the same."

/-- A constructed Fermatean fuzzy set: membership degree mu and
non-membership degree nu (src/fuzzy.py, class FermateanFuzzySet). -/
structure FermateanFuzzySet where
  mu : ℝ
  nu : ℝ

instance : Inhabited FermateanFuzzySet := ⟨⟨0, 0⟩⟩

/-- FermateanFuzzySet.__init__ (src/fuzzy.py lines 7-19): validates
0 <= mu <= 1, 0 <= nu <= 1 and mu^3 + nu^3 <= 1, raising ValueError
otherwise, and stores the two degrees unchanged. -/
noncomputable def FermateanFuzzySet.construct (mu nu : ℝ) : Except PyError FermateanFuzzySet :=
  if ¬ (0 ≤ mu ∧ mu ≤ 1 ∧ 0 ≤ nu ∧ nu ≤ 1) then .error (.valueError rangeMsg)
  else if mu ^ 3 + nu ^ 3 > 1 then .error (.valueError fermateanMsg)
  else .ok ⟨mu, nu⟩

/-- FermateanFuzzySet.score (src/fuzzy.py lines 21-27):
(1 + mu^3 - nu^3) / 2. -/
noncomputable def FermateanFuzzySet.score (f : FermateanFuzzySet) : ℝ :=
  (1 + f.mu ^ 3 - f.nu ^ 3) / 2

/-- The validity constraint FermateanFuzzySet.__init__ enforces. -/
def FermateanFuzzySet.Valid (f : FermateanFuzzySet) : Prop :=
  0 ≤ f.mu ∧ f.mu ≤ 1 ∧ 0 ≤ f.nu ∧ f.nu ≤ 1 ∧ f.mu ^ 3 + f.nu ^ 3 ≤ 1

/-- The local mu_cube_sum of FFLDWA.aggregate (src/fuzzy.py line 50):
np.sum over the comprehension weights[i] * ffs_list[i].mu ** 3 (the
length check has already passed, so zipWith ranges over exactly the
same index pairs as the comprehension). -/
noncomputable def FFLDWA.mu_cube_sum (ffs_list : List FermateanFuzzySet) (weights : List ℝ) : ℝ :=
  (List.zipWith (fun f w => w * f.mu ^ 3) ffs_list weights).sum

/-- The local nu_cube_sum of FFLDWA.aggregate (src/fuzzy.py line 51):
np.sum over the comprehension weights[i] * ffs_list[i].nu ** 3. -/
noncomputable def FFLDWA.nu_cube_sum (ffs_list : List FermateanFuzzySet) (weights : List ℝ) : ℝ :=
  (List.zipWith (fun f w => w * f.nu ^ 3) ffs_list weights).sum

/-- FFLDWA.aggregate (src/fuzzy.py lines 45-57).  The comparative
coefficient c stored by FFLDWA.__init__ is never read by aggregate, so
it is not a parameter here.  A negative cube sum makes the float
fractional power produce NaN, which then fails the constructor's range
check: that path is embedded directly as the range ValueError, since
the reals have no NaN. -/
noncomputable def FFLDWA.aggregate (ffs_list : List FermateanFuzzySet) (weights : List ℝ) :
    Except PyError FermateanFuzzySet :=
  if ffs_list.length ≠ weights.length then .error (.valueError lengthMsg)
  else if FFLDWA.mu_cube_sum ffs_list weights < 0 ∨ FFLDWA.nu_cube_sum ffs_list weights < 0 then
    .error (.valueError rangeMsg)
  else
    FermateanFuzzySet.construct (FFLDWA.mu_cube_sum ffs_list weights ^ ((1 : ℝ) / 3))
      (FFLDWA.nu_cube_sum ffs_list weights ^ ((1 : ℝ) / 3))

/-- Pressure threshold for Safe risk (src/rules.py line 13). -/
def BOGReleaseRules.safe_pressure_threshold : ℝ := 0.5

/-- Pressure threshold for Warning risk (src/rules.py line 14). -/
def BOGReleaseRules.warning_pressure_threshold : ℝ := 0.6

/-- Pressure threshold for High Risk (src/rules.py line 15). -/
def BOGReleaseRules.high_risk_pressure_threshold : ℝ := 0.7

/-- Pressure threshold for Prohibited risk (src/rules.py line 16, never
read by evaluate_release_conditions). -/
def BOGReleaseRules.prohibited_pressure_threshold : ℝ := 0.8

/-- Risk level name returned for a score of at least 0.8. -/
def levelProhibited : String := "Prohibited"

/-- Risk level name returned for a score in [0.6, 0.8). -/
def levelHighRisk : String := "High Risk"

/-- Risk level name returned for a score in [0.4, 0.6). -/
def levelWarning : String := "Warning"

/-- Risk level name returned for a score below 0.4. -/
def levelSafe : String := "Safe"

/-- Reason string for the Prohibited deny decision. -/
def reasonProhibited : String := "Prohibited location or weather condition"

/-- Reason string for the High Risk allow decision. -/
def reasonHighRisk : String := "High-risk location"

/-- Reason string for the High Risk deny decision. -/
def reasonBelowHighRisk : String := "Pressure below high-risk threshold"

/-- Reason string for the Warning allow decision. -/
def reasonWarning : String := "Warning location"

/-- Reason string for the Warning deny decision. -/
def reasonBelowWarning : String := "Pressure below warning threshold"

/-- Reason string for the Safe allow decision. -/
def reasonSafe : String := "Safe location"

/-- Reason string for the Safe deny decision. -/
def reasonBelowSafe : String := "Pressure below safe threshold"

/-- Reason string of the trailing default branch. -/
def reasonNoMatch : String := "No release conditions met"

/-- BOGReleaseRules.map_risk_level (src/rules.py lines 58-72). -/
noncomputable def BOGReleaseRules.map_risk_level (risk_score : ℝ) : String :=
  if risk_score ≥ 0.8 then levelProhibited
  else if risk_score ≥ 0.6 then levelHighRisk
  else if risk_score ≥ 0.4 then levelWarning
  else levelSafe

/-- Step 3 of BOGReleaseRules.evaluate_release_conditions (src/rules.py
lines 33-56): the chain of if-branches mapping the risk level and the
tank pressure to the returned decision, ending in the default branch. -/
noncomputable def BOGReleaseRules.apply_policy (tank_pressure : ℝ) (risk_level : String) :
    Bool × String :=
  if risk_level = levelProhibited then (false, reasonProhibited)
  else if risk_level = levelHighRisk then
    if tank_pressure ≥ BOGReleaseRules.high_risk_pressure_threshold then (true, reasonHighRisk)
    else (false, reasonBelowHighRisk)
  else if risk_level = levelWarning then
    if tank_pressure ≥ BOGReleaseRules.warning_pressure_threshold then (true, reasonWarning)
    else (false, reasonBelowWarning)
  else if risk_level = levelSafe then
    if tank_pressure ≥ BOGReleaseRules.safe_pressure_threshold then (true, reasonSafe)
    else (false, reasonBelowSafe)
  else (false, reasonNoMatch)

/-- BOGReleaseRules.evaluate_release_conditions (src/rules.py lines
18-56).  On an empty list, Python evaluates 1/len(...) before calling
aggregate, raising ZeroDivisionError; otherwise the per-criterion sets
are aggregated with the uniform weights [1/n] * n, a raised exception
propagates (Except.map), and the overall score is mapped through
map_risk_level and the policy table. -/
noncomputable def BOGReleaseRules.evaluate_release_conditions
    (tank_pressure : ℝ) (aggregated_risk_scores : List FermateanFuzzySet) :
    Except PyError (Bool × String) :=
  if aggregated_risk_scores.length = 0 then .error .zeroDivisionError
  else
    (FFLDWA.aggregate aggregated_risk_scores
        (List.replicate aggregated_risk_scores.length
          ((1 : ℝ) / aggregated_risk_scores.length))).map
      (fun overall_risk =>
        BOGReleaseRules.apply_policy tank_pressure
          (BOGReleaseRules.map_risk_level overall_risk.score))

/-- Message of the ShapeError the spec prescribes for FF-SWARA on an
empty input. -/
def swaraEmptyMsg : String := "criteria_scores must be non-empty."

/-- Modelled from the spec: FF-SWARA derive_weights is described in
spec.md section 4.3 but no implementation of it exists under src/.
This is the raw-weight recursion on the already ranked tail: given the
previous raw weight q and the previous ranked score, each next score x
contributes comparative significance c = prev - x, coefficient
k = c + 1 and raw weight q / k. -/
noncomputable def FFSWARA.qRest (qprev prev : ℝ) : List ℝ → List ℝ
  | [] => []
  | x :: xs => (qprev / (prev - x + 1)) :: FFSWARA.qRest (qprev / (prev - x + 1)) x xs

/-- Modelled from the spec: the list of raw weights q over a ranked
score list; the first ranked criterion gets q_0 = 1 (spec.md section
4.3, step 2), later ones follow the stepwise recursion. -/
noncomputable def FFSWARA.qValues : List ℝ → List ℝ
  | [] => []
  | s :: rest => 1 :: FFSWARA.qRest 1 s rest

/-- Modelled from the spec: FF-SWARA derive_weights (spec.md section
4.3), absent from src/.  Fails with ShapeError on an empty input, sorts
the scores descending, computes the raw weights q by the stepwise
recursion and normalizes them by their sum; the output is in
descending-score rank order. -/
noncomputable def FFSWARA.derive_weights (criteria_scores : List ℝ) : Except PyError (List ℝ) :=
  if criteria_scores = [] then .error (.valueError swaraEmptyMsg)
  else
    let ranked := criteria_scores.insertionSort (· ≥ ·)
    let qs := FFSWARA.qValues ranked
    .ok (qs.map (fun q => q / qs.sum))

/-- Cubing undoes the one-third real power on nonnegative reals. -/
lemma cube_rpow_third (x : ℝ) (hx : 0 ≤ x) : (x ^ ((1 : ℝ) / 3)) ^ (3 : ℕ) = x := by
  rw [← Real.rpow_natCast (x ^ ((1 : ℝ) / 3)) 3, ← Real.rpow_mul hx]
  norm_num

lemma FFSWARA.qRest_length (l : List ℝ) :
    ∀ qprev prev, (FFSWARA.qRest qprev prev l).length = l.length := by
  induction l with
  | nil => intro qprev prev; rfl
  | cons x xs ih => intro qprev prev; simp [FFSWARA.qRest, ih]

lemma FFSWARA.qValues_length (l : List ℝ) : (FFSWARA.qValues l).length = l.length := by
  cases l with
  | nil => rfl
  | cons s rest => simp [FFSWARA.qValues, FFSWARA.qRest_length]

lemma FermateanFuzzySet.construct_ok (mu nu : ℝ) (h1 : 0 ≤ mu) (h2 : mu ≤ 1)
    (h3 : 0 ≤ nu) (h4 : nu ≤ 1) (h5 : mu ^ 3 + nu ^ 3 ≤ 1) :
    FermateanFuzzySet.construct mu nu = .ok ⟨mu, nu⟩ := by
  rw [FermateanFuzzySet.construct, if_neg (by push_neg; exact ⟨h1, h2, h3, h4⟩),
    if_neg (by exact not_lt.mpr h5)]

lemma rpow_third_nonneg (x : ℝ) (h0 : 0 ≤ x) : 0 ≤ x ^ ((1 : ℝ) / 3) :=
  Real.rpow_nonneg h0 _

lemma rpow_third_le_one (x : ℝ) (h0 : 0 ≤ x) (h1 : x ≤ 1) : x ^ ((1 : ℝ) / 3) ≤ 1 :=
  Real.rpow_le_one h0 h1 (by norm_num)

/-- When the length check passes and both cube sums are nonnegative,
FFLDWA.aggregate is exactly the constructor applied to the two cube
roots. -/
lemma FFLDWA.aggregate_eq_construct (ffs_list : List FermateanFuzzySet) (weights : List ℝ)
    (hlen : ffs_list.length = weights.length)
    (hmu : 0 ≤ FFLDWA.mu_cube_sum ffs_list weights)
    (hnu : 0 ≤ FFLDWA.nu_cube_sum ffs_list weights) :
    FFLDWA.aggregate ffs_list weights =
      FermateanFuzzySet.construct (FFLDWA.mu_cube_sum ffs_list weights ^ ((1 : ℝ) / 3))
        (FFLDWA.nu_cube_sum ffs_list weights ^ ((1 : ℝ) / 3)) := by
  rw [FFLDWA.aggregate, if_neg (by simp [hlen]),
    if_neg (by push_neg; exact ⟨not_lt.mp (by simpa using hmu), not_lt.mp (by simpa using hnu)⟩)]

/-- Over a descending chain of scores, the raw weights stay positive and
form a descending chain themselves, starting from a positive seed. -/
lemma FFSWARA.qRest_pos_chain (l : List ℝ) :
    ∀ qprev prev, 0 < qprev → List.Chain (· ≥ ·) prev l →
      (∀ x ∈ FFSWARA.qRest qprev prev l, 0 < x) ∧
        List.Chain (· ≥ ·) qprev (FFSWARA.qRest qprev prev l) := by
  induction l with
  | nil => intro qprev prev hq _; exact ⟨by simp [FFSWARA.qRest], List.Chain.nil⟩
  | cons x xs ih =>
    intro qprev prev hq hch
    rcases List.chain_cons.mp hch with ⟨hpx, hch'⟩
    have hk : (1 : ℝ) ≤ prev - x + 1 := by linarith [hpx]
    have hk0 : (0 : ℝ) < prev - x + 1 := by linarith
    have hqpos : 0 < qprev / (prev - x + 1) := div_pos hq hk0
    have hqle : qprev / (prev - x + 1) ≤ qprev := div_le_self hq.le hk
    obtain ⟨hall, hchain⟩ := ih (qprev / (prev - x + 1)) x hqpos hch'
    refine ⟨?_, ?_⟩
    · intro y hy
      rcases List.mem_cons.mp (by simpa [FFSWARA.qRest] using hy) with h | h
      · exact h ▸ hqpos
      · exact hall y h
    · exact List.chain_cons.mpr ⟨hqle, hchain⟩

/-- The five identical criterion sets of the pressure-0.75 scenario. -/
noncomputable def scenarioSafeList : List FermateanFuzzySet := List.replicate 5 ⟨0.3, 0.6⟩

lemma scenario_mu_cube_sum :
    FFLDWA.mu_cube_sum scenarioSafeList (List.replicate 5 ((1 : ℝ) / 5)) = 0.027 := by
  norm_num [FFLDWA.mu_cube_sum, scenarioSafeList, List.replicate, List.zipWith]

lemma scenario_nu_cube_sum :
    FFLDWA.nu_cube_sum scenarioSafeList (List.replicate 5 ((1 : ℝ) / 5)) = 0.216 := by
  norm_num [FFLDWA.nu_cube_sum, scenarioSafeList, List.replicate, List.zipWith]

lemma scenario_aggregate :
    FFLDWA.aggregate scenarioSafeList (List.replicate 5 ((1 : ℝ) / 5)) =
      .ok ⟨(0.027 : ℝ) ^ ((1 : ℝ) / 3), (0.216 : ℝ) ^ ((1 : ℝ) / 3)⟩ := by
  rw [FFLDWA.aggregate_eq_construct _ _ (by simp [scenarioSafeList])
      (by rw [scenario_mu_cube_sum]; norm_num) (by rw [scenario_nu_cube_sum]; norm_num),
    scenario_mu_cube_sum, scenario_nu_cube_sum]
  exact FermateanFuzzySet.construct_ok _ _ (rpow_third_nonneg _ (by norm_num))
    (rpow_third_le_one _ (by norm_num) (by norm_num)) (rpow_third_nonneg _ (by norm_num))
    (rpow_third_le_one _ (by norm_num) (by norm_num))
    (by rw [cube_rpow_third _ (by norm_num), cube_rpow_third _ (by norm_num)]; norm_num)

lemma scenario_score :
    FermateanFuzzySet.score ⟨(0.027 : ℝ) ^ ((1 : ℝ) / 3), (0.216 : ℝ) ^ ((1 : ℝ) / 3)⟩
      = 0.4055 := by
  rw [FermateanFuzzySet.score]
  show (1 + ((0.027 : ℝ) ^ ((1 : ℝ) / 3)) ^ 3 - ((0.216 : ℝ) ^ ((1 : ℝ) / 3)) ^ 3) / 2 = 0.4055
  rw [cube_rpow_third _ (by norm_num), cube_rpow_third _ (by norm_num)]
  norm_num

lemma scenario_map : BOGReleaseRules.map_risk_level 0.4055 = levelWarning := by
  rw [BOGReleaseRules.map_risk_level, if_neg (by norm_num), if_neg (by norm_num),
    if_pos (by norm_num)]

lemma apply_policy_warning (p : ℝ) (hp : p ≥ 0.6) :
    BOGReleaseRules.apply_policy p levelWarning = (true, reasonWarning) := by
  rw [BOGReleaseRules.apply_policy, if_neg (by simp [levelWarning, levelProhibited]),
    if_neg (by simp [levelWarning, levelHighRisk]), if_pos rfl,
    if_pos (by rw [BOGReleaseRules.warning_pressure_threshold]; exact hp)]

lemma scenario_evaluate :
    BOGReleaseRules.evaluate_release_conditions 0.75 scenarioSafeList =
      .ok (true, reasonWarning) := by
  have hlen : scenarioSafeList.length = 5 := by simp [scenarioSafeList]
  rw [BOGReleaseRules.evaluate_release_conditions, if_neg (by simp [hlen]), hlen,
    show ((5 : ℕ) : ℝ) = (5 : ℝ) from by norm_num, scenario_aggregate]
  rw [Except.map, scenario_score, scenario_map, apply_policy_warning 0.75 (by norm_num)]

/-- C3 counterexample: the constructor has no tolerance band.  At
mu = 1, nu = 1/2000 the cube sum exceeds 1 by only 1.25e-10, far below
the claimed tolerance of about 1e-9, yet construction fails with the
Fermatean-condition ValueError. -/
theorem construct_rejects_within_claimed_tolerance :
    (1 : ℝ) < (1 : ℝ) ^ 3 + ((1 : ℝ) / 2000) ^ 3 ∧
    (1 : ℝ) ^ 3 + ((1 : ℝ) / 2000) ^ 3 ≤ 1 + 1 / 1000000000 ∧
    FermateanFuzzySet.construct 1 (1 / 2000) = .error (.valueError fermateanMsg) := by
  refine ⟨by norm_num, by norm_num, ?_⟩
  rw [FermateanFuzzySet.construct,
    if_neg (by push_neg; exact ⟨by norm_num, by norm_num, by norm_num, by norm_num⟩),
    if_pos (by norm_num)]

/-- C3 (amended): construct fails with the range ValueError exactly when
mu or nu is outside [0, 1], fails with the Fermatean ValueError when the
degrees are in range but mu^3 + nu^3 exceeds 1 strictly (no tolerance),
and otherwise succeeds with an immutable value holding exactly the given
degrees. -/
theorem construct_characterization (mu nu : ℝ) :
    (¬ (0 ≤ mu ∧ mu ≤ 1 ∧ 0 ≤ nu ∧ nu ≤ 1) →
      FermateanFuzzySet.construct mu nu = .error (.valueError rangeMsg)) ∧
    ((0 ≤ mu ∧ mu ≤ 1 ∧ 0 ≤ nu ∧ nu ≤ 1) → 1 < mu ^ 3 + nu ^ 3 →
      FermateanFuzzySet.construct mu nu = .error (.valueError fermateanMsg)) ∧
    ((0 ≤ mu ∧ mu ≤ 1 ∧ 0 ≤ nu ∧ nu ≤ 1) → mu ^ 3 + nu ^ 3 ≤ 1 →
      FermateanFuzzySet.construct mu nu = .ok ⟨mu, nu⟩) := by
  refine ⟨fun h => ?_, fun h h1 => ?_, fun h h1 => ?_⟩
  · rw [FermateanFuzzySet.construct, if_pos h]
  · rw [FermateanFuzzySet.construct, if_neg (by push_neg; exact h), if_pos h1]
  · rw [FermateanFuzzySet.construct, if_neg (by push_neg; exact h),
      if_neg (not_lt.mpr h1)]

/-- C3 witness: construction succeeds at mu = nu = 1/2. -/
theorem construct_characterization_witness :
    FermateanFuzzySet.construct (1 / 2) (1 / 2) = .ok ⟨1 / 2, 1 / 2⟩ :=
  (construct_characterization (1 / 2) (1 / 2)).2.2 (by norm_num) (by norm_num)

/-- C4: for every valid pair of degrees, score is exactly
(1 + mu^3 - nu^3) / 2, lies in [0, 1], and equals 1/2 when mu = nu;
score is a total function with no failure mode. -/
theorem score_spec (mu nu : ℝ) (h1 : 0 ≤ mu) (h2 : mu ≤ 1) (h3 : 0 ≤ nu) (h4 : nu ≤ 1)
    (h5 : mu ^ 3 + nu ^ 3 ≤ 1) :
    FermateanFuzzySet.score ⟨mu, nu⟩ = (1 + mu ^ 3 - nu ^ 3) / 2 ∧
    0 ≤ FermateanFuzzySet.score ⟨mu, nu⟩ ∧
    FermateanFuzzySet.score ⟨mu, nu⟩ ≤ 1 ∧
    (mu = nu → FermateanFuzzySet.score ⟨mu, nu⟩ = 1 / 2) := by
  have hmu3 : mu ^ 3 ≤ 1 := pow_le_one₀ h1 h2
  have hnu3 : nu ^ 3 ≤ 1 := pow_le_one₀ h3 h4
  have hmu0 : 0 ≤ mu ^ 3 := pow_nonneg h1 3
  have hnu0 : 0 ≤ nu ^ 3 := pow_nonneg h3 3
  refine ⟨rfl, ?_, ?_, fun he => ?_⟩
  · rw [FermateanFuzzySet.score]; dsimp only; linarith
  · rw [FermateanFuzzySet.score]; dsimp only; linarith
  · rw [FermateanFuzzySet.score]; dsimp only; rw [he]; ring

/-- C4 witness: the score facts at mu = nu = 1/2. -/
theorem score_spec_witness :
    FermateanFuzzySet.score ⟨1 / 2, 1 / 2⟩ = (1 + (1 / 2 : ℝ) ^ 3 - (1 / 2 : ℝ) ^ 3) / 2 ∧
    0 ≤ FermateanFuzzySet.score ⟨1 / 2, 1 / 2⟩ ∧
    FermateanFuzzySet.score ⟨1 / 2, 1 / 2⟩ ≤ 1 ∧
    ((1 / 2 : ℝ) = 1 / 2 → FermateanFuzzySet.score ⟨1 / 2, 1 / 2⟩ = 1 / 2) :=
  score_spec (1 / 2) (1 / 2) (by norm_num) (by norm_num) (by norm_num) (by norm_num)
    (by norm_num)

/-- C7 counterexample: on an empty criteria list the engine does fail,
but with ZeroDivisionError (from the uniform weight 1/len computed
before aggregation), not with the length-mismatch ValueError the spec
calls ShapeError. -/
theorem evaluate_empty_not_shape_error :
    BOGReleaseRules.evaluate_release_conditions 0.75 [] = .error .zeroDivisionError ∧
    BOGReleaseRules.evaluate_release_conditions 0.75 [] ≠
      .error (.valueError lengthMsg) := by
  have h : BOGReleaseRules.evaluate_release_conditions 0.75 [] =
      .error .zeroDivisionError := by
    rw [BOGReleaseRules.evaluate_release_conditions,
      if_pos (show ([] : List FermateanFuzzySet).length = 0 from rfl)]
  exact ⟨h, by rw [h]; simp⟩

/-- C7 (amended): calling evaluate_release_conditions on an empty
per-criterion list fails with ZeroDivisionError, and never returns a
decision. -/
theorem evaluate_empty_zero_division (p : ℝ) :
    BOGReleaseRules.evaluate_release_conditions p [] = .error .zeroDivisionError ∧
    ∀ d : Bool × String, BOGReleaseRules.evaluate_release_conditions p [] ≠ .ok d := by
  have h : BOGReleaseRules.evaluate_release_conditions p [] =
      .error .zeroDivisionError := by
    rw [BOGReleaseRules.evaluate_release_conditions,
      if_pos (show ([] : List FermateanFuzzySet).length = 0 from rfl)]
  exact ⟨h, fun d => by rw [h]; simp⟩

/-- C1 counterexample: with tank pressure 0.75 and five criterion sets
all equal to (mu = 0.3, nu = 0.6), the engine does not return the
claimed decision (True, "Safe location"). -/
theorem scenario_not_safe_location :
    BOGReleaseRules.evaluate_release_conditions 0.75
        (List.replicate 5 ⟨0.3, 0.6⟩) ≠ .ok (true, reasonSafe) := by
  rw [show List.replicate 5 (⟨0.3, 0.6⟩ : FermateanFuzzySet) = scenarioSafeList from rfl,
    scenario_evaluate]
  simp [reasonWarning, reasonSafe]

/-- C1 (amended): the five (mu = 0.3, nu = 0.6) criteria aggregate under
uniform weights 1/5 to an overall set whose score is 0.4055, which is
not below 0.4 but in [0.4, 0.6), so the risk level is Warning, and since
the pressure 0.75 is at least the warning threshold 0.6 the decision is
(True, "Warning location"). -/
theorem scenario_pressure075_warning :
    (∃ r, FFLDWA.aggregate (List.replicate 5 (⟨0.3, 0.6⟩ : FermateanFuzzySet))
        (List.replicate 5 ((1 : ℝ) / 5)) = .ok r ∧ r.score = 0.4055) ∧
    (0.4 : ℝ) ≤ 0.4055 ∧
    BOGReleaseRules.map_risk_level 0.4055 = levelWarning ∧
    (0.75 : ℝ) ≥ BOGReleaseRules.warning_pressure_threshold ∧
    BOGReleaseRules.evaluate_release_conditions 0.75 (List.replicate 5 ⟨0.3, 0.6⟩) =
      .ok (true, reasonWarning) := by
  refine ⟨⟨⟨(0.027 : ℝ) ^ ((1 : ℝ) / 3), (0.216 : ℝ) ^ ((1 : ℝ) / 3)⟩,
      scenario_aggregate, scenario_score⟩, by norm_num, scenario_map,
    by rw [BOGReleaseRules.warning_pressure_threshold]; norm_num,
    scenario_evaluate⟩

lemma apply_policy_prohibited (p : ℝ) :
    BOGReleaseRules.apply_policy p levelProhibited = (false, reasonProhibited) := by
  rw [BOGReleaseRules.apply_policy, if_pos rfl]

lemma apply_policy_high_ge (p : ℝ) (hp : p ≥ 0.7) :
    BOGReleaseRules.apply_policy p levelHighRisk = (true, reasonHighRisk) := by
  rw [BOGReleaseRules.apply_policy, if_neg (by simp [levelHighRisk, levelProhibited]),
    if_pos rfl, if_pos (by rw [BOGReleaseRules.high_risk_pressure_threshold]; exact hp)]

lemma apply_policy_high_lt (p : ℝ) (hp : p < 0.7) :
    BOGReleaseRules.apply_policy p levelHighRisk = (false, reasonBelowHighRisk) := by
  rw [BOGReleaseRules.apply_policy, if_neg (by simp [levelHighRisk, levelProhibited]),
    if_pos rfl,
    if_neg (by rw [BOGReleaseRules.high_risk_pressure_threshold]; exact not_le.mpr hp)]

lemma apply_policy_warning_lt (p : ℝ) (hp : p < 0.6) :
    BOGReleaseRules.apply_policy p levelWarning = (false, reasonBelowWarning) := by
  rw [BOGReleaseRules.apply_policy, if_neg (by simp [levelWarning, levelProhibited]),
    if_neg (by simp [levelWarning, levelHighRisk]), if_pos rfl,
    if_neg (by rw [BOGReleaseRules.warning_pressure_threshold]; exact not_le.mpr hp)]

lemma apply_policy_safe_ge (p : ℝ) (hp : p ≥ 0.5) :
    BOGReleaseRules.apply_policy p levelSafe = (true, reasonSafe) := by
  rw [BOGReleaseRules.apply_policy, if_neg (by simp [levelSafe, levelProhibited]),
    if_neg (by simp [levelSafe, levelHighRisk]), if_neg (by simp [levelSafe, levelWarning]),
    if_pos rfl, if_pos (by rw [BOGReleaseRules.safe_pressure_threshold]; exact hp)]

lemma apply_policy_safe_lt (p : ℝ) (hp : p < 0.5) :
    BOGReleaseRules.apply_policy p levelSafe = (false, reasonBelowSafe) := by
  rw [BOGReleaseRules.apply_policy, if_neg (by simp [levelSafe, levelProhibited]),
    if_neg (by simp [levelSafe, levelHighRisk]), if_neg (by simp [levelSafe, levelWarning]),
    if_pos rfl,
    if_neg (by rw [BOGReleaseRules.safe_pressure_threshold]; exact not_le.mpr hp)]

/-- When the list is non-empty and the internal uniform-weight
aggregation yields overall risk r, the engine returns the policy-table
decision for r's risk level. -/
lemma evaluate_of_aggregate_ok (p : ℝ) (l : List FermateanFuzzySet)
    (r : FermateanFuzzySet) (hne : l ≠ [])
    (hagg : FFLDWA.aggregate l (List.replicate l.length ((1 : ℝ) / l.length)) = .ok r) :
    BOGReleaseRules.evaluate_release_conditions p l =
      .ok (BOGReleaseRules.apply_policy p (BOGReleaseRules.map_risk_level r.score)) := by
  rw [BOGReleaseRules.evaluate_release_conditions,
    if_neg (by simpa using List.length_eq_zero.not.mpr hne), hagg, Except.map]

/-- C2: map_risk_level partitions scores at 0.8 / 0.6 / 0.4 into
Prohibited / High Risk / Warning / Safe, and, whenever the internal
uniform-weight aggregation of a non-empty criteria list yields overall
risk r, evaluate_release_conditions denies for Prohibited always and
for the other three levels allows release exactly when the pressure
reaches the matching threshold 0.7 / 0.6 / 0.5, with the policy-table
reason strings. -/
theorem map_risk_level_and_policy (s p : ℝ) (l : List FermateanFuzzySet)
    (r : FermateanFuzzySet) (hne : l ≠ [])
    (hagg : FFLDWA.aggregate l (List.replicate l.length ((1 : ℝ) / l.length)) = .ok r) :
    (s ≥ 0.8 → BOGReleaseRules.map_risk_level s = levelProhibited) ∧
    (0.6 ≤ s ∧ s < 0.8 → BOGReleaseRules.map_risk_level s = levelHighRisk) ∧
    (0.4 ≤ s ∧ s < 0.6 → BOGReleaseRules.map_risk_level s = levelWarning) ∧
    (s < 0.4 → BOGReleaseRules.map_risk_level s = levelSafe) ∧
    (BOGReleaseRules.map_risk_level r.score = levelProhibited →
      BOGReleaseRules.evaluate_release_conditions p l = .ok (false, reasonProhibited)) ∧
    (BOGReleaseRules.map_risk_level r.score = levelHighRisk → p ≥ 0.7 →
      BOGReleaseRules.evaluate_release_conditions p l = .ok (true, reasonHighRisk)) ∧
    (BOGReleaseRules.map_risk_level r.score = levelHighRisk → p < 0.7 →
      BOGReleaseRules.evaluate_release_conditions p l = .ok (false, reasonBelowHighRisk)) ∧
    (BOGReleaseRules.map_risk_level r.score = levelWarning → p ≥ 0.6 →
      BOGReleaseRules.evaluate_release_conditions p l = .ok (true, reasonWarning)) ∧
    (BOGReleaseRules.map_risk_level r.score = levelWarning → p < 0.6 →
      BOGReleaseRules.evaluate_release_conditions p l = .ok (false, reasonBelowWarning)) ∧
    (BOGReleaseRules.map_risk_level r.score = levelSafe → p ≥ 0.5 →
      BOGReleaseRules.evaluate_release_conditions p l = .ok (true, reasonSafe)) ∧
    (BOGReleaseRules.map_risk_level r.score = levelSafe → p < 0.5 →
      BOGReleaseRules.evaluate_release_conditions p l = .ok (false, reasonBelowSafe)) := by
  have heval := evaluate_of_aggregate_ok p l r hne hagg
  refine ⟨fun h => ?_, fun h => ?_, fun h => ?_, fun h => ?_,
    fun h => ?_, fun h hp => ?_, fun h hp => ?_, fun h hp => ?_, fun h hp => ?_,
    fun h hp => ?_, fun h hp => ?_⟩
  · rw [BOGReleaseRules.map_risk_level, if_pos h]
  · rw [BOGReleaseRules.map_risk_level, if_neg (by push_neg; linarith [h.2]),
      if_pos (by linarith [h.1])]
  · rw [BOGReleaseRules.map_risk_level, if_neg (by push_neg; linarith [h.2]),
      if_neg (by push_neg; linarith [h.2]), if_pos (by linarith [h.1])]
  · rw [BOGReleaseRules.map_risk_level, if_neg (by push_neg; linarith),
      if_neg (by push_neg; linarith), if_neg (by push_neg; linarith)]
  · rw [heval, h, apply_policy_prohibited]
  · rw [heval, h, apply_policy_high_ge p hp]
  · rw [heval, h, apply_policy_high_lt p hp]
  · rw [heval, h, apply_policy_warning p hp]
  · rw [heval, h, apply_policy_warning_lt p hp]
  · rw [heval, h, apply_policy_safe_ge p hp]
  · rw [heval, h, apply_policy_safe_lt p hp]

/-- C2 witness: the policy facts at s = 0.85, p = 0.75 on the concrete
five-criteria scenario list. -/
theorem map_risk_level_and_policy_witness :
    ((0.85 : ℝ) ≥ 0.8 → BOGReleaseRules.map_risk_level 0.85 = levelProhibited) ∧
    ((0.6 : ℝ) ≤ 0.85 ∧ (0.85 : ℝ) < 0.8 → BOGReleaseRules.map_risk_level 0.85 = levelHighRisk) ∧
    ((0.4 : ℝ) ≤ 0.85 ∧ (0.85 : ℝ) < 0.6 → BOGReleaseRules.map_risk_level 0.85 = levelWarning) ∧
    ((0.85 : ℝ) < 0.4 → BOGReleaseRules.map_risk_level 0.85 = levelSafe) ∧
    (BOGReleaseRules.map_risk_level
        (FermateanFuzzySet.score ⟨(0.027 : ℝ) ^ ((1 : ℝ) / 3), (0.216 : ℝ) ^ ((1 : ℝ) / 3)⟩) =
          levelProhibited →
      BOGReleaseRules.evaluate_release_conditions 0.75 scenarioSafeList =
        .ok (false, reasonProhibited)) ∧
    (BOGReleaseRules.map_risk_level
        (FermateanFuzzySet.score ⟨(0.027 : ℝ) ^ ((1 : ℝ) / 3), (0.216 : ℝ) ^ ((1 : ℝ) / 3)⟩) =
          levelHighRisk → (0.75 : ℝ) ≥ 0.7 →
      BOGReleaseRules.evaluate_release_conditions 0.75 scenarioSafeList =
        .ok (true, reasonHighRisk)) ∧
    (BOGReleaseRules.map_risk_level
        (FermateanFuzzySet.score ⟨(0.027 : ℝ) ^ ((1 : ℝ) / 3), (0.216 : ℝ) ^ ((1 : ℝ) / 3)⟩) =
          levelHighRisk → (0.75 : ℝ) < 0.7 →
      BOGReleaseRules.evaluate_release_conditions 0.75 scenarioSafeList =
        .ok (false, reasonBelowHighRisk)) ∧
    (BOGReleaseRules.map_risk_level
        (FermateanFuzzySet.score ⟨(0.027 : ℝ) ^ ((1 : ℝ) / 3), (0.216 : ℝ) ^ ((1 : ℝ) / 3)⟩) =
          levelWarning → (0.75 : ℝ) ≥ 0.6 →
      BOGReleaseRules.evaluate_release_conditions 0.75 scenarioSafeList =
        .ok (true, reasonWarning)) ∧
    (BOGReleaseRules.map_risk_level
        (FermateanFuzzySet.score ⟨(0.027 : ℝ) ^ ((1 : ℝ) / 3), (0.216 : ℝ) ^ ((1 : ℝ) / 3)⟩) =
          levelWarning → (0.75 : ℝ) < 0.6 →
      BOGReleaseRules.evaluate_release_conditions 0.75 scenarioSafeList =
        .ok (false, reasonBelowWarning)) ∧
    (BOGReleaseRules.map_risk_level
        (FermateanFuzzySet.score ⟨(0.027 : ℝ) ^ ((1 : ℝ) / 3), (0.216 : ℝ) ^ ((1 : ℝ) / 3)⟩) =
          levelSafe → (0.75 : ℝ) ≥ 0.5 →
      BOGReleaseRules.evaluate_release_conditions 0.75 scenarioSafeList =
        .ok (true, reasonSafe)) ∧
    (BOGReleaseRules.map_risk_level
        (FermateanFuzzySet.score ⟨(0.027 : ℝ) ^ ((1 : ℝ) / 3), (0.216 : ℝ) ^ ((1 : ℝ) / 3)⟩) =
          levelSafe → (0.75 : ℝ) < 0.5 →
      BOGReleaseRules.evaluate_release_conditions 0.75 scenarioSafeList =
        .ok (false, reasonBelowSafe)) :=
  map_risk_level_and_policy 0.85 0.75 scenarioSafeList
    ⟨(0.027 : ℝ) ^ ((1 : ℝ) / 3), (0.216 : ℝ) ^ ((1 : ℝ) / 3)⟩
    (by simp [scenarioSafeList])
    (by rw [show scenarioSafeList.length = 5 from by simp [scenarioSafeList],
          show ((5 : ℕ) : ℝ) = (5 : ℝ) from by norm_num]
        exact scenario_aggregate)

lemma map_risk_level_cases (s : ℝ) :
    BOGReleaseRules.map_risk_level s = levelProhibited ∨
    BOGReleaseRules.map_risk_level s = levelHighRisk ∨
    BOGReleaseRules.map_risk_level s = levelWarning ∨
    BOGReleaseRules.map_risk_level s = levelSafe := by
  rw [BOGReleaseRules.map_risk_level]
  split_ifs <;> simp

lemma apply_policy_ne_noMatch (p : ℝ) (lev : String)
    (h : lev = levelProhibited ∨ lev = levelHighRisk ∨ lev = levelWarning ∨ lev = levelSafe) :
    BOGReleaseRules.apply_policy p lev ≠ (false, reasonNoMatch) := by
  rcases h with h | h | h | h <;> subst h
  · rw [apply_policy_prohibited]; simp [reasonProhibited, reasonNoMatch]
  · by_cases hp : p ≥ 0.7
    · rw [apply_policy_high_ge p hp]; simp
    · rw [apply_policy_high_lt p (not_le.mp hp)]
      simp [reasonBelowHighRisk, reasonNoMatch]
  · by_cases hp : p ≥ 0.6
    · rw [apply_policy_warning p hp]; simp
    · rw [apply_policy_warning_lt p (not_le.mp hp)]
      simp [reasonBelowWarning, reasonNoMatch]
  · by_cases hp : p ≥ 0.5
    · rw [apply_policy_safe_ge p hp]; simp
    · rw [apply_policy_safe_lt p (not_le.mp hp)]
      simp [reasonBelowSafe, reasonNoMatch]

/-- C10: map_risk_level always returns one of the four level names, so
the trailing default branch is dead: whenever the engine returns a
decision at all, it is never (False, "No release conditions met"). -/
theorem map_risk_level_total_no_default (s p : ℝ) (l : List FermateanFuzzySet) :
    (BOGReleaseRules.map_risk_level s = levelProhibited ∨
     BOGReleaseRules.map_risk_level s = levelHighRisk ∨
     BOGReleaseRules.map_risk_level s = levelWarning ∨
     BOGReleaseRules.map_risk_level s = levelSafe) ∧
    (∀ d : Bool × String, BOGReleaseRules.evaluate_release_conditions p l = .ok d →
      d ≠ (false, reasonNoMatch)) := by
  refine ⟨map_risk_level_cases s, fun d hd => ?_⟩
  by_cases hl : l.length = 0
  · rw [BOGReleaseRules.evaluate_release_conditions, if_pos hl] at hd
    exact absurd hd (by simp)
  · rw [BOGReleaseRules.evaluate_release_conditions, if_neg hl] at hd
    cases hagg : FFLDWA.aggregate l (List.replicate l.length ((1 : ℝ) / l.length)) with
    | error e => rw [hagg] at hd; exact absurd hd (by simp [Except.map])
    | ok r =>
      rw [hagg, Except.map, Except.ok.injEq] at hd
      rw [← hd]
      exact apply_policy_ne_noMatch p _ (map_risk_level_cases r.score)

/-- C10 witness: the level disjunction at score 0.9 and the no-default
fact at pressure 0.75 on the concrete scenario list. -/
theorem map_risk_level_total_no_default_witness :
    (BOGReleaseRules.map_risk_level 0.9 = levelProhibited ∨
     BOGReleaseRules.map_risk_level 0.9 = levelHighRisk ∨
     BOGReleaseRules.map_risk_level 0.9 = levelWarning ∨
     BOGReleaseRules.map_risk_level 0.9 = levelSafe) ∧
    (∀ d : Bool × String,
      BOGReleaseRules.evaluate_release_conditions 0.75 scenarioSafeList = .ok d →
        d ≠ (false, reasonNoMatch)) :=
  map_risk_level_total_no_default 0.9 0.75 scenarioSafeList

/-- The zipWith form of a weighted cube sum equals the indexed sum
over range, as the Python comprehension writes it. -/
lemma zipWith_mul_sum_eq_range (g : FermateanFuzzySet → ℝ) :
    ∀ (l : List FermateanFuzzySet) (w : List ℝ), l.length = w.length →
      (List.zipWith (fun f wi => wi * g f) l w).sum
        = ∑ i ∈ Finset.range l.length, w.getD i 0 * g (l.getD i default) := by
  intro l
  induction l with
  | nil => intro w h; simp
  | cons a l ih =>
    intro w h
    cases w with
    | nil => simp at h
    | cons b w' =>
      simp only [List.zipWith, List.sum_cons, List.length_cons]
      rw [Finset.sum_range_succ']
      simp only [List.getD_cons_succ, List.getD_cons_zero]
      rw [ih w' (by simpa using h)]
      ring

lemma zipWith_mul_eq_map_zip (g : FermateanFuzzySet → ℝ) :
    ∀ (l : List FermateanFuzzySet) (w : List ℝ),
      List.zipWith (fun f wi => wi * g f) l w
        = (l.zip w).map (fun q => q.2 * g q.1) := by
  intro l
  induction l with
  | nil => intro w; simp
  | cons a l ih =>
    intro w
    cases w with
    | nil => simp
    | cons b w' => simp [List.zipWith, List.zip_cons_cons, ih]

lemma zipWith_mul_sum_nonneg (g : FermateanFuzzySet → ℝ) :
    ∀ (l : List FermateanFuzzySet) (w : List ℝ), (∀ x ∈ w, 0 ≤ x) → (∀ f ∈ l, 0 ≤ g f) →
      0 ≤ (List.zipWith (fun f wi => wi * g f) l w).sum := by
  intro l
  induction l with
  | nil => intro w _ _; simp
  | cons a l ih =>
    intro w hw hg
    cases w with
    | nil => simp
    | cons b w' =>
      simp only [List.zipWith, List.sum_cons]
      have h1 : 0 ≤ b * g a :=
        mul_nonneg (hw b (by simp)) (hg a (by simp))
      have h2 := ih w' (fun x hx => hw x (by simp [hx])) (fun f hf => hg f (by simp [hf]))
      linarith

lemma zipWith_mul_sum_le_weight_sum (g : FermateanFuzzySet → ℝ) :
    ∀ (l : List FermateanFuzzySet) (w : List ℝ), (∀ x ∈ w, 0 ≤ x) → (∀ f ∈ l, g f ≤ 1) →
      (List.zipWith (fun f wi => wi * g f) l w).sum ≤ w.sum := by
  intro l
  induction l with
  | nil =>
    intro w hw _
    simpa using List.sum_nonneg hw
  | cons a l ih =>
    intro w hw hg
    cases w with
    | nil => simp
    | cons b w' =>
      simp only [List.zipWith, List.sum_cons]
      have h1 : b * g a ≤ b :=
        mul_le_of_le_one_right (hw b (by simp)) (hg a (by simp))
      have h2 := ih w' (fun x hx => hw x (by simp [hx])) (fun f hf => hg f (by simp [hf]))
      linarith

/-- The two cube sums add to the weighted sum of mu^3 + nu^3. -/
lemma cube_sum_add (l : List FermateanFuzzySet) (w : List ℝ) :
    FFLDWA.mu_cube_sum l w + FFLDWA.nu_cube_sum l w
      = (List.zipWith (fun f wi => wi * (f.mu ^ 3 + f.nu ^ 3)) l w).sum := by
  rw [FFLDWA.mu_cube_sum, FFLDWA.nu_cube_sum]
  induction l generalizing w with
  | nil => simp
  | cons a l ih =>
    cases w with
    | nil => simp
    | cons b w' =>
      simp only [List.zipWith, List.sum_cons]
      have := ih w'
      ring_nf
      ring_nf at this
      linarith

lemma mu_cube_sum_eq_map_zip :
    ∀ (l : List FermateanFuzzySet) (w : List ℝ),
      FFLDWA.mu_cube_sum l w = ((l.zip w).map (fun q => q.2 * q.1.mu ^ 3)).sum := by
  intro l
  induction l with
  | nil => intro w; simp [FFLDWA.mu_cube_sum]
  | cons a l ih =>
    intro w
    cases w with
    | nil => simp [FFLDWA.mu_cube_sum]
    | cons b w' =>
      simp only [FFLDWA.mu_cube_sum, List.zipWith, List.sum_cons, List.zip_cons_cons,
        List.map_cons] at ih ⊢
      rw [ih w']

lemma nu_cube_sum_eq_map_zip :
    ∀ (l : List FermateanFuzzySet) (w : List ℝ),
      FFLDWA.nu_cube_sum l w = ((l.zip w).map (fun q => q.2 * q.1.nu ^ 3)).sum := by
  intro l
  induction l with
  | nil => intro w; simp [FFLDWA.nu_cube_sum]
  | cons a l ih =>
    intro w
    cases w with
    | nil => simp [FFLDWA.nu_cube_sum]
    | cons b w' =>
      simp only [FFLDWA.nu_cube_sum, List.zipWith, List.sum_cons, List.zip_cons_cons,
        List.map_cons] at ih ⊢
      rw [ih w']

/-- C5: aggregate fails with the length-mismatch ValueError (the spec's
ShapeError) when the sequences disagree in length; otherwise its cube
sums are exactly the indexed sums over the supplied weights (no internal
renormalization), and, whenever both cube sums are nonnegative (so that
the real cube root is the float one), the result is the constructor
applied to their cube roots. -/
theorem aggregate_formula (l : List FermateanFuzzySet) (w : List ℝ) :
    (l.length ≠ w.length → FFLDWA.aggregate l w = .error (.valueError lengthMsg)) ∧
    (l.length = w.length →
      FFLDWA.mu_cube_sum l w
          = ∑ i ∈ Finset.range l.length, w.getD i 0 * (l.getD i default).mu ^ 3 ∧
      FFLDWA.nu_cube_sum l w
          = ∑ i ∈ Finset.range l.length, w.getD i 0 * (l.getD i default).nu ^ 3 ∧
      (0 ≤ FFLDWA.mu_cube_sum l w → 0 ≤ FFLDWA.nu_cube_sum l w →
        FFLDWA.aggregate l w =
          FermateanFuzzySet.construct (FFLDWA.mu_cube_sum l w ^ ((1 : ℝ) / 3))
            (FFLDWA.nu_cube_sum l w ^ ((1 : ℝ) / 3)))) := by
  refine ⟨fun h => ?_, fun h =>
    ⟨?_, ?_, fun hmu hnu => FFLDWA.aggregate_eq_construct l w h hmu hnu⟩⟩
  · rw [FFLDWA.aggregate, if_pos h]
  · exact zipWith_mul_sum_eq_range (fun f => f.mu ^ 3) l w h
  · exact zipWith_mul_sum_eq_range (fun f => f.nu ^ 3) l w h

/-- C5 witness: at the singleton list with weight 1 the cube sums reduce
to the single cube and aggregate is the constructor on the cube roots;
a mismatched pair fails with the length ValueError. -/
theorem aggregate_formula_witness :
    FFLDWA.aggregate [⟨1, 0⟩] ([] : List ℝ) = .error (.valueError lengthMsg) ∧
    FFLDWA.aggregate [⟨1, 0⟩] [1] =
      FermateanFuzzySet.construct ((1 : ℝ) ^ ((1 : ℝ) / 3)) ((0 : ℝ) ^ ((1 : ℝ) / 3)) := by
  have hmu : FFLDWA.mu_cube_sum [⟨1, 0⟩] [1] = 1 := by
    norm_num [FFLDWA.mu_cube_sum, List.zipWith]
  have hnu : FFLDWA.nu_cube_sum [⟨1, 0⟩] [1] = 0 := by
    norm_num [FFLDWA.nu_cube_sum, List.zipWith]
  constructor
  · exact (aggregate_formula [⟨1, 0⟩] []).1 (by simp)
  · have h := ((aggregate_formula [⟨1, 0⟩] [1]).2 rfl).2.2
      (by simp [hmu]) (by simp [hnu])
    rw [h, hmu, hnu]

/-- C6: FFLDWA.aggregate is permutation-invariant: permuting the
criteria and their weights by the same permutation leaves the
aggregated result unchanged. -/
theorem aggregate_perm_invariant (l1 l2 : List FermateanFuzzySet) (w1 w2 : List ℝ)
    (h1 : l1.length = w1.length) (h2 : l2.length = w2.length)
    (hp : (l1.zip w1).Perm (l2.zip w2)) :
    FFLDWA.aggregate l1 w1 = FFLDWA.aggregate l2 w2 := by
  have hmu : FFLDWA.mu_cube_sum l1 w1 = FFLDWA.mu_cube_sum l2 w2 := by
    rw [mu_cube_sum_eq_map_zip l1 w1, mu_cube_sum_eq_map_zip l2 w2]
    exact (hp.map _).sum_eq
  have hnu : FFLDWA.nu_cube_sum l1 w1 = FFLDWA.nu_cube_sum l2 w2 := by
    rw [nu_cube_sum_eq_map_zip l1 w1, nu_cube_sum_eq_map_zip l2 w2]
    exact (hp.map _).sum_eq
  unfold FFLDWA.aggregate
  rw [hmu, hnu, h1, h2]
  simp

/-- C6 witness: swapping the two (set, weight) pairs leaves the
aggregate unchanged. -/
theorem aggregate_perm_invariant_witness :
    FFLDWA.aggregate [⟨0.5, 0.5⟩, ⟨0.3, 0.6⟩] [0.6, 0.4] =
      FFLDWA.aggregate [⟨0.3, 0.6⟩, ⟨0.5, 0.5⟩] [0.4, 0.6] :=
  aggregate_perm_invariant _ _ _ _ rfl rfl
    (by
      simpa using List.Perm.swap (Prod.mk (⟨0.3, 0.6⟩ : FermateanFuzzySet) (0.4 : ℝ))
        (Prod.mk (⟨0.5, 0.5⟩ : FermateanFuzzySet) (0.6 : ℝ)) [])

/-- C9: on a non-empty list of valid Fermatean sets with nonnegative
weights summing to at most 1, both constructor error branches are
unreachable: aggregate succeeds, and the aggregated degrees lie in
[0, 1] and satisfy the Fermatean constraint. -/
theorem aggregate_total_on_valid (l : List FermateanFuzzySet) (w : List ℝ)
    (hne : l ≠ []) (hlen : l.length = w.length)
    (hval : ∀ f ∈ l, f.Valid) (hw : ∀ x ∈ w, 0 ≤ x) (hwsum : w.sum ≤ 1) :
    FFLDWA.aggregate l w =
      .ok ⟨FFLDWA.mu_cube_sum l w ^ ((1 : ℝ) / 3), FFLDWA.nu_cube_sum l w ^ ((1 : ℝ) / 3)⟩ ∧
    0 ≤ FFLDWA.mu_cube_sum l w ^ ((1 : ℝ) / 3) ∧
    FFLDWA.mu_cube_sum l w ^ ((1 : ℝ) / 3) ≤ 1 ∧
    0 ≤ FFLDWA.nu_cube_sum l w ^ ((1 : ℝ) / 3) ∧
    FFLDWA.nu_cube_sum l w ^ ((1 : ℝ) / 3) ≤ 1 ∧
    (FFLDWA.mu_cube_sum l w ^ ((1 : ℝ) / 3)) ^ 3 +
      (FFLDWA.nu_cube_sum l w ^ ((1 : ℝ) / 3)) ^ 3 ≤ 1 := by
  have hmu0 : 0 ≤ FFLDWA.mu_cube_sum l w := by
    rw [FFLDWA.mu_cube_sum]
    exact zipWith_mul_sum_nonneg (fun f => f.mu ^ 3) l w hw
      (fun f hf => pow_nonneg (hval f hf).1 3)
  have hnu0 : 0 ≤ FFLDWA.nu_cube_sum l w := by
    rw [FFLDWA.nu_cube_sum]
    exact zipWith_mul_sum_nonneg (fun f => f.nu ^ 3) l w hw
      (fun f hf => pow_nonneg (hval f hf).2.2.1 3)
  have hadd : FFLDWA.mu_cube_sum l w + FFLDWA.nu_cube_sum l w ≤ 1 := by
    rw [cube_sum_add]
    exact le_trans
      (zipWith_mul_sum_le_weight_sum (fun f => f.mu ^ 3 + f.nu ^ 3) l w hw
        (fun f hf => (hval f hf).2.2.2.2)) hwsum
  have hmu1 : FFLDWA.mu_cube_sum l w ≤ 1 := by linarith
  have hnu1 : FFLDWA.nu_cube_sum l w ≤ 1 := by linarith
  have hcube : (FFLDWA.mu_cube_sum l w ^ ((1 : ℝ) / 3)) ^ 3 +
      (FFLDWA.nu_cube_sum l w ^ ((1 : ℝ) / 3)) ^ 3 ≤ 1 := by
    rw [cube_rpow_third _ hmu0, cube_rpow_third _ hnu0]; exact hadd
  refine ⟨?_, rpow_third_nonneg _ hmu0, rpow_third_le_one _ hmu0 hmu1,
    rpow_third_nonneg _ hnu0, rpow_third_le_one _ hnu0 hnu1, hcube⟩
  rw [FFLDWA.aggregate_eq_construct l w hlen hmu0 hnu0]
  exact FermateanFuzzySet.construct_ok _ _ (rpow_third_nonneg _ hmu0)
    (rpow_third_le_one _ hmu0 hmu1) (rpow_third_nonneg _ hnu0)
    (rpow_third_le_one _ hnu0 hnu1) hcube

/-- C9 witness: the totality facts at the singleton valid set (1/2, 1/2)
with weight vector [1]. -/
theorem aggregate_total_on_valid_witness :
    FFLDWA.aggregate [⟨1 / 2, 1 / 2⟩] [1] =
      .ok ⟨FFLDWA.mu_cube_sum [⟨1 / 2, 1 / 2⟩] [1] ^ ((1 : ℝ) / 3),
        FFLDWA.nu_cube_sum [⟨1 / 2, 1 / 2⟩] [1] ^ ((1 : ℝ) / 3)⟩ ∧
    0 ≤ FFLDWA.mu_cube_sum [⟨1 / 2, 1 / 2⟩] [1] ^ ((1 : ℝ) / 3) ∧
    FFLDWA.mu_cube_sum [⟨1 / 2, 1 / 2⟩] [1] ^ ((1 : ℝ) / 3) ≤ 1 ∧
    0 ≤ FFLDWA.nu_cube_sum [⟨1 / 2, 1 / 2⟩] [1] ^ ((1 : ℝ) / 3) ∧
    FFLDWA.nu_cube_sum [⟨1 / 2, 1 / 2⟩] [1] ^ ((1 : ℝ) / 3) ≤ 1 ∧
    (FFLDWA.mu_cube_sum [⟨1 / 2, 1 / 2⟩] [1] ^ ((1 : ℝ) / 3)) ^ 3 +
      (FFLDWA.nu_cube_sum [⟨1 / 2, 1 / 2⟩] [1] ^ ((1 : ℝ) / 3)) ^ 3 ≤ 1 :=
  aggregate_total_on_valid [⟨1 / 2, 1 / 2⟩] [1] (by simp) rfl
    (by
      intro f hf
      rw [List.mem_singleton] at hf
      subst hf
      exact ⟨by norm_num, by norm_num, by norm_num, by norm_num, by norm_num⟩)
    (by intro x hx; rw [List.mem_singleton] at hx; subst hx; norm_num)
    (by norm_num)

lemma qValues_pos_chain (l : List ℝ) (hs : l.Sorted (· ≥ ·)) :
    (∀ x ∈ FFSWARA.qValues l, 0 < x) ∧ (FFSWARA.qValues l).Chain' (· ≥ ·) := by
  cases l with
  | nil => simp [FFSWARA.qValues]
  | cons s rest =>
    have hch : List.Chain (· ≥ ·) s rest := List.chain_iff_pairwise.mpr hs
    obtain ⟨hall, hchain⟩ := FFSWARA.qRest_pos_chain rest 1 s one_pos hch
    refine ⟨?_, ?_⟩
    · intro x hx
      rcases List.mem_cons.mp (by simpa [FFSWARA.qValues] using hx) with h | h
      · exact h ▸ one_pos
      · exact hall x h
    · exact hchain

/-- C8: FF-SWARA derive_weights on any non-empty score list succeeds
with a weight vector of matching length whose entries are nonnegative,
sum to exactly 1, and are non-increasing along the descending-score
rank order; on the all-equal scores [0.5, 0.5, 0.5] the weights are the
uniform [1/3, 1/3, 1/3]. -/
theorem derive_weights_spec (scores : List ℝ) (h : scores ≠ []) :
    (∃ w, FFSWARA.derive_weights scores = .ok w ∧ w.length = scores.length ∧
      (∀ x ∈ w, 0 ≤ x) ∧ w.sum = 1 ∧ w.Chain' (· ≥ ·)) ∧
    FFSWARA.derive_weights [(0.5 : ℝ), 0.5, 0.5] = .ok [1 / 3, 1 / 3, 1 / 3] := by
  constructor
  · have hsorted : (scores.insertionSort (· ≥ ·)).Sorted (· ≥ ·) :=
      List.sorted_insertionSort _ _
    have hlenr : (scores.insertionSort (· ≥ ·)).length = scores.length :=
      (List.perm_insertionSort _ _).length_eq
    obtain ⟨hpos, hchain⟩ := qValues_pos_chain _ hsorted
    have hqlen : (FFSWARA.qValues (scores.insertionSort (· ≥ ·))).length
        = (scores.insertionSort (· ≥ ·)).length := FFSWARA.qValues_length _
    have hrne : scores.insertionSort (· ≥ ·) ≠ [] := by
      intro hnil
      apply h
      have hl := hlenr
      rw [hnil] at hl
      exact List.length_eq_zero.mp hl.symm
    have hspos : 0 < (FFSWARA.qValues (scores.insertionSort (· ≥ ·))).sum := by
      cases hq : FFSWARA.qValues (scores.insertionSort (· ≥ ·)) with
      | nil =>
        exfalso
        apply hrne
        have hl := hqlen
        rw [hq] at hl
        exact List.length_eq_zero.mp hl.symm
      | cons a as =>
        have ha : 0 < a := hpos a (by rw [hq]; simp)
        have has : 0 ≤ as.sum :=
          List.sum_nonneg (fun x hx => (hpos x (by rw [hq]; simp [hx])).le)
        simp only [List.sum_cons]
        linarith
    refine ⟨(FFSWARA.qValues (scores.insertionSort (· ≥ ·))).map
        (fun q => q / (FFSWARA.qValues (scores.insertionSort (· ≥ ·))).sum),
      ?_, ?_, ?_, ?_, ?_⟩
    · rw [FFSWARA.derive_weights, if_neg h]
    · simp [hqlen, hlenr]
    · intro x hx
      rcases List.mem_map.mp hx with ⟨q, hq, rfl⟩
      exact div_nonneg (hpos q hq).le hspos.le
    · simp only [div_eq_mul_inv]
      rw [List.sum_map_mul_right]
      simp only [List.map_id']
      exact mul_inv_cancel₀ (ne_of_gt hspos)
    · exact List.chain'_map_of_chain' (R := (· ≥ ·)) _
        (fun a b hab => by
          show b / _ ≤ a / _
          exact (div_le_div_iff_of_pos_right hspos).mpr hab) hchain
  · rw [FFSWARA.derive_weights, if_neg (by simp)]
    norm_num [List.insertionSort, List.orderedInsert, FFSWARA.qValues, FFSWARA.qRest]

/-- C8 witness: the postconditions instantiated at the non-empty input
[0.5, 0.5, 0.5]. -/
theorem derive_weights_spec_witness :
    (∃ w, FFSWARA.derive_weights [(0.5 : ℝ), 0.5, 0.5] = .ok w ∧
      w.length = [(0.5 : ℝ), 0.5, 0.5].length ∧
      (∀ x ∈ w, 0 ≤ x) ∧ w.sum = 1 ∧ w.Chain' (· ≥ ·)) ∧
    FFSWARA.derive_weights [(0.5 : ℝ), 0.5, 0.5] = .ok [1 / 3, 1 / 3, 1 / 3] :=
  derive_weights_spec [0.5, 0.5, 0.5] (by simp)

/-- C7 witness: the ZeroDivisionError fact at pressure 0.75. -/
theorem evaluate_empty_zero_division_witness :
    BOGReleaseRules.evaluate_release_conditions 0.75 [] = .error .zeroDivisionError ∧
    ∀ d : Bool × String, BOGReleaseRules.evaluate_release_conditions 0.75 [] ≠ .ok d :=
  evaluate_empty_zero_division 0.75
